import Mathlib

/-!
Verification development for the IGNOU AI Tutor app (myapp.py).

The app is a Streamlit page with five screens: a home page with a student
dashboard form, a Gemini chat page, a notes summarizer, a quiz iframe, and a
resources page.  We embed the logic of each screen shallowly: pure Lean
functions over explicit inputs, with external services (Gemini, the
HuggingFace summarizer, PyPDF2) passed in as oracle functions, and Python
exceptions modelled with Except.

The repository contains two variants of the app; the variant in src
(myapp.py) calls the summarizer once on the whole text, while the
chunked-summarization loop described by the specification lives in the other
variant, whose file is not included in src.  Definitions for that loop are
therefore modelled from the spec and are marked as such; every other
definition is a direct embedding of myapp.py.
-/

namespace IgnouTutor

/-! ### Chunked summarization (spec-modelled) -/

/-- Modelled from the spec: the recursion of the character-level chunking
step of the chunked-summarization variant (a file absent from src).
`chunksAux c fuel l` splits `l` into contiguous slices of `c + 1` elements
each (the last slice may be shorter).  `fuel` is a structural-recursion
bound; every call keeps `l.length ≤ fuel`, so the fuel-exhausted branch is
unreachable. -/
def chunksAux (c : Nat) : Nat → List α → List (List α)
  | _, [] => []
  | 0, x :: xs => [x :: xs]
  | fuel + 1, x :: xs => (x :: xs.take c) :: chunksAux c fuel (xs.drop c)

/-- Modelled from the spec: the chunking step of the chunked-summarization
variant (absent from src): partition a text, viewed as its list of
characters, into contiguous slices of `C` characters in original order.  For
`C = 0` (excluded by the spec, which requires `C > 0`) no chunks are
produced. -/
def chunkText (C : Nat) (l : List α) : List (List α) :=
  if C = 0 then [] else chunksAux (C - 1) l.length l

theorem chunksAux_cons (c fuel : Nat) (x : α) (xs : List α) :
    chunksAux c (fuel + 1) (x :: xs) =
      (x :: xs.take c) :: chunksAux c fuel (xs.drop c) := rfl

/-- Concatenating the chunks reproduces the input. -/
theorem chunksAux_flatten (c : Nat) :
    ∀ (fuel : Nat) (l : List α), l.length ≤ fuel →
      (chunksAux c fuel l).flatten = l := by
  intro fuel
  induction fuel with
  | zero =>
      intro l hl
      have : l = [] := List.length_eq_zero.mp (Nat.le_zero.mp hl)
      subst this
      rfl
  | succ fuel ih =>
      intro l hl
      cases l with
      | nil => rfl
      | cons x xs =>
          rw [chunksAux_cons]
          have hfuel : (xs.drop c).length ≤ fuel := by
            simp only [List.length_drop]
            simp only [List.length_cons] at hl
            omega
          simp only [List.flatten_cons, ih (xs.drop c) hfuel]
          simp [List.take_append_drop]

/-- The number of chunks is the ceiling of the length divided by the chunk
size `c + 1`. -/
theorem chunksAux_length (c : Nat) :
    ∀ (fuel : Nat) (l : List α), l.length ≤ fuel →
      (chunksAux c fuel l).length = (l.length + c) / (c + 1) := by
  intro fuel
  induction fuel with
  | zero =>
      intro l hl
      have : l = [] := List.length_eq_zero.mp (Nat.le_zero.mp hl)
      subst this
      simp only [chunksAux, List.length_nil, Nat.zero_add]
      exact (Nat.div_eq_of_lt (Nat.lt_succ_self c)).symm
  | succ fuel ih =>
      intro l hl
      cases l with
      | nil =>
          simp only [chunksAux, List.length_nil, Nat.zero_add]
          exact (Nat.div_eq_of_lt (Nat.lt_succ_self c)).symm
      | cons x xs =>
          rw [chunksAux_cons]
          have hfuel : (xs.drop c).length ≤ fuel := by
            simp only [List.length_drop]
            simp only [List.length_cons] at hl
            omega
          simp only [List.length_cons, ih (xs.drop c) hfuel, List.length_drop]
          have hsplit : xs.length + 1 + c = xs.length + (c + 1) := by omega
          rw [hsplit, Nat.add_div_right _ (Nat.succ_pos c)]
          rcases Nat.lt_or_ge xs.length c with h | h
          · rw [Nat.sub_eq_zero_of_le (Nat.le_of_lt h), Nat.zero_add,
              Nat.div_eq_of_lt (Nat.lt_succ_self c), Nat.div_eq_of_lt (by omega)]
          · rw [Nat.sub_add_cancel h]

theorem chunksAux_ne_nil (c fuel : Nat) (x : α) (xs : List α) :
    chunksAux c fuel (x :: xs) ≠ [] := by
  cases fuel with
  | zero => simp [chunksAux]
  | succ fuel => rw [chunksAux_cons]; simp

/-- Every chunk except possibly the last has length exactly `c + 1`. -/
theorem chunksAux_dropLast_length (c : Nat) :
    ∀ (fuel : Nat) (l : List α), l.length ≤ fuel →
      ∀ ch ∈ (chunksAux c fuel l).dropLast, ch.length = c + 1 := by
  intro fuel
  induction fuel with
  | zero =>
      intro l hl
      have : l = [] := List.length_eq_zero.mp (Nat.le_zero.mp hl)
      subst this
      simp [chunksAux]
  | succ fuel ih =>
      intro l hl ch hch
      cases l with
      | nil => simp [chunksAux] at hch
      | cons x xs =>
          rw [chunksAux_cons] at hch
          have hfuel : (xs.drop c).length ≤ fuel := by
            simp only [List.length_drop]
            simp only [List.length_cons] at hl
            omega
          cases hdrop : xs.drop c with
          | nil =>
              rw [hdrop] at hch
              simp [chunksAux] at hch
          | cons y ys =>
              have hne : chunksAux c fuel (xs.drop c) ≠ [] := by
                rw [hdrop]; exact chunksAux_ne_nil c fuel y ys
              rw [List.dropLast_cons_of_ne_nil hne] at hch
              rcases List.mem_cons.mp hch with h | h
              · subst h
                have hc : c < xs.length := by
                  by_contra hle
                  push_neg at hle
                  rw [List.drop_eq_nil_of_le hle] at hdrop
                  cases hdrop
                simp [List.length_take, Nat.min_eq_left (Nat.le_of_lt hc)]
              · exact ih (xs.drop c) hfuel ch h


theorem chunkText_length (C : Nat) (hC : C ≠ 0) (l : List α) :
    (chunkText C l).length = (l.length + C - 1) / C := by
  unfold chunkText
  rw [if_neg hC, chunksAux_length (C - 1) l.length l le_rfl]
  congr 1 <;> omega

theorem chunkText_flatten (C : Nat) (hC : C ≠ 0) (l : List α) :
    (chunkText C l).flatten = l := by
  unfold chunkText
  rw [if_neg hC]
  exact chunksAux_flatten (C - 1) l.length l le_rfl

theorem chunkText_dropLast (C : Nat) (hC : C ≠ 0) (l : List α) :
    ∀ ch ∈ (chunkText C l).dropLast, ch.length = C := by
  unfold chunkText
  rw [if_neg hC]
  intro ch hch
  have := chunksAux_dropLast_length (C - 1) l.length l le_rfl ch hch
  omega

/-- A 2500-character text chunked at 1000 characters yields three chunks of
lengths 1000, 1000 and 500.  Proved from the general chunking lemmas rather
than by evaluation, since the lists involved are large. -/
theorem chunkText_replicate_2500 :
    (chunkText 1000 (List.replicate 2500 'A')).map List.length = [1000, 1000, 500] := by
  have hlen : (chunkText 1000 (List.replicate 2500 'A')).length = 3 := by
    rw [chunkText_length 1000 (by decide), List.length_replicate]
  obtain ⟨a, b, c, habc⟩ := List.length_eq_three.mp hlen
  have hd := chunkText_dropLast 1000 (by decide) (List.replicate 2500 'A')
  rw [habc] at hd
  have ha : a.length = 1000 := hd a (by simp)
  have hb : b.length = 1000 := hd b (by simp)
  have hf := chunkText_flatten 1000 (by decide) (List.replicate 2500 'A')
  rw [habc] at hf
  have hsum : a.length + (b.length + c.length) = 2500 := by
    have := congrArg List.length hf
    simp only [List.flatten_cons, List.flatten_nil, List.append_nil,
      List.length_append, List.length_replicate] at this
    omega
  have hc : c.length = 500 := by omega
  rw [habc]
  simp [ha, hb, hc]

/-- C1: For every input text of length L and every chunk size C > 0, the
chunking step produces exactly ceil(L/C) chunks, every chunk except possibly
the last has length exactly C, and concatenating the chunks in order (with no
separators) reproduces the original text; in particular a text of 2500
identical characters with C = 1000 produces 3 chunks of lengths 1000, 1000,
500. -/
theorem chunking_produces_ceil_chunks (C : Nat) (hC : 0 < C) (l : List Char) :
    (chunkText C l).length = (l.length + C - 1) / C ∧
    (∀ ch ∈ (chunkText C l).dropLast, ch.length = C) ∧
    (chunkText C l).flatten = l ∧
    (chunkText 1000 (List.replicate 2500 'A')).map List.length = [1000, 1000, 500] :=
  ⟨chunkText_length C (Nat.pos_iff_ne_zero.mp hC) l,
   chunkText_dropLast C (Nat.pos_iff_ne_zero.mp hC) l,
   chunkText_flatten C (Nat.pos_iff_ne_zero.mp hC) l,
   chunkText_replicate_2500⟩

/-- Witness for `chunking_produces_ceil_chunks` at C = 2 and a concrete
five-character text. -/
theorem chunking_produces_ceil_chunks_witness :
    (chunkText 2 (['a', 'b', 'c', 'd', 'e'] : List Char)).length =
      ((['a', 'b', 'c', 'd', 'e'] : List Char).length + 2 - 1) / 2 ∧
    (∀ ch ∈ (chunkText 2 (['a', 'b', 'c', 'd', 'e'] : List Char)).dropLast,
      ch.length = 2) ∧
    (chunkText 2 (['a', 'b', 'c', 'd', 'e'] : List Char)).flatten =
      ['a', 'b', 'c', 'd', 'e'] ∧
    (chunkText 1000 (List.replicate 2500 'A')).map List.length = [1000, 1000, 500] :=
  chunking_produces_ceil_chunks 2 (by decide) ['a', 'b', 'c', 'd', 'e']

/-- Minimum summary length passed to the summarization model
(min_length=40 in the source). -/
def minSummaryLength : Nat := 40

/-- Maximum summary length passed to the summarization model
(max_length=150 in the source). -/
def maxSummaryLength : Nat := 150

/-- Modelled from the spec: the chunk-and-summarize operation of the
chunked-summarization variant (absent from src): split the text into
C-character chunks, call the summarization model on each chunk independently
with the fixed minimum and maximum summary lengths, and join the per-chunk
summaries with a single separating space, in slice order.  The model is an
oracle taking the chunk and the two length bounds. -/
def summarizeChunks (C : Nat) (model : List Char → Nat → Nat → List Char)
    (text : List Char) : List Char :=
  List.intercalate [' ']
    ((chunkText C text).map (fun ch => model ch minSummaryLength maxSummaryLength))

/-- C2: the summarization operation partitions the text into ceil(L/C)
contiguous non-overlapping slices in original order, invokes the model on
each slice independently with the fixed minimum and maximum summary lengths,
and returns the per-chunk summaries joined with a separating space in slice
order. -/
theorem summarize_per_chunk (C : Nat) (hC : 0 < C)
    (model : List Char → Nat → Nat → List Char) (text : List Char) :
    ∃ ss : List (List Char),
      ss.length = (text.length + C - 1) / C ∧
      (chunkText C text).flatten = text ∧
      (∀ i (h1 : i < (chunkText C text).length) (h2 : i < ss.length),
        ss.get ⟨i, h2⟩ =
          model ((chunkText C text).get ⟨i, h1⟩) minSummaryLength maxSummaryLength) ∧
      summarizeChunks C model text = List.intercalate [' '] ss := by
  refine ⟨(chunkText C text).map
    (fun ch => model ch minSummaryLength maxSummaryLength), ?_, ?_, ?_, rfl⟩
  · rw [List.length_map]
    exact chunkText_length C (Nat.pos_iff_ne_zero.mp hC) text
  · exact chunkText_flatten C (Nat.pos_iff_ne_zero.mp hC) text
  · intro i h1 h2
    simp [List.get_eq_getElem, List.getElem_map]

/-- Witness for `summarize_per_chunk` at C = 2, the identity oracle and a
concrete three-character text. -/
theorem summarize_per_chunk_witness :
    ∃ ss : List (List Char),
      ss.length = ((['x', 'y', 'z'] : List Char).length + 2 - 1) / 2 ∧
      (chunkText 2 (['x', 'y', 'z'] : List Char)).flatten = ['x', 'y', 'z'] ∧
      (∀ i (h1 : i < (chunkText 2 (['x', 'y', 'z'] : List Char)).length)
        (h2 : i < ss.length),
        ss.get ⟨i, h2⟩ =
          (fun (ch : List Char) (_ _ : Nat) => ch)
            ((chunkText 2 (['x', 'y', 'z'] : List Char)).get ⟨i, h1⟩)
            minSummaryLength maxSummaryLength) ∧
      summarizeChunks 2 (fun ch _ _ => ch) ['x', 'y', 'z'] =
        List.intercalate [' '] ss :=
  summarize_per_chunk 2 (by decide) (fun ch _ _ => ch) ['x', 'y', 'z']

theorem except_bind_error {ε α β : Type} (e : ε) (g : α → Except ε β) :
    (Except.error e >>= g) = Except.error e := rfl

theorem except_bind_ok {ε α β : Type} (a : α) (g : α → Except ε β) :
    (Except.ok a >>= g) = g a := rfl

theorem except_pure {ε α : Type} (a : α) :
    (pure a : Except ε α) = Except.ok a := rfl

/-- Mapping a fallible function over a list in the Except monad succeeds
exactly when it succeeds pointwise, and the result is the pointwise list of
successes. -/
theorem mapM_except_ok_iff {ε α β : Type} (f : α → Except ε β) :
    ∀ (l : List α) (r : List β),
      l.mapM f = Except.ok r ↔
        List.Forall₂ (fun a b => f a = Except.ok b) l r := by
  intro l
  induction l with
  | nil =>
      intro r
      constructor
      · intro h
        rw [List.mapM_nil, except_pure] at h
        injection h with h
        subst h
        exact List.Forall₂.nil
      · intro h
        cases h
        rw [List.mapM_nil, except_pure]
  | cons x xs ih =>
      intro r
      rw [List.mapM_cons]
      cases hf : f x with
      | error e =>
          rw [except_bind_error]
          constructor
          · intro h
            exact Except.noConfusion h
          · intro h
            cases h with
            | cons h1 h2 =>
                rw [hf] at h1
                exact Except.noConfusion h1
      | ok y =>
          rw [except_bind_ok]
          cases hm : xs.mapM f with
          | error e =>
              rw [except_bind_error]
              constructor
              · intro h
                exact Except.noConfusion h
              · intro h
                cases h with
                | cons h1 h2 =>
                    have := (ih _).mpr h2
                    rw [hm] at this
                    exact Except.noConfusion this
          | ok ys =>
              rw [except_bind_ok, except_pure]
              constructor
              · intro h
                injection h with h
                subst h
                exact List.Forall₂.cons hf ((ih ys).mp hm)
              · intro h
                cases h with
                | cons h1 h2 =>
                    rw [hf] at h1
                    injection h1 with h1
                    subst h1
                    have h3 := (ih _).mpr h2
                    rw [hm] at h3
                    injection h3 with h3
                    subst h3
                    rfl

theorem forall2_mem_left {α β : Type} {R : α → β → Prop} :
    ∀ {l1 : List α} {l2 : List β}, List.Forall₂ R l1 l2 →
      ∀ a ∈ l1, ∃ b ∈ l2, R a b := by
  intro l1 l2 h
  induction h with
  | nil =>
      intro a ha
      exact absurd ha (List.not_mem_nil a)
  | @cons x y xs ys h1 h2 ih =>
      intro a ha
      rcases List.mem_cons.mp ha with rfl | ha
      · exact ⟨y, List.mem_cons_self y ys, h1⟩
      · obtain ⟨b, hb, hr⟩ := ih a ha
        exact ⟨b, List.mem_cons_of_mem y hb, hr⟩

/-- Modelled from the spec: the failure policy of the chunked-summarization
variant (absent from src): the per-chunk model calls are made in slice order,
each may fail, and a failing call fails the whole operation.  The model is an
oracle returning either a summary or an error message. -/
def summarizeChunksE (C : Nat) (model : List Char → Except String (List Char))
    (text : List Char) : Except String (List Char) :=
  ((chunkText C text).mapM model).map (List.intercalate [' '])

/-- C4: if the summarization call on any chunk fails, the whole operation
fails; a successful result is always the full concatenation of one summary
per chunk, never a partial one. -/
theorem chunk_failure_fails_whole (C : Nat)
    (model : List Char → Except String (List Char)) (text : List Char) :
    ((∃ ch ∈ chunkText C text, ∀ s, model ch ≠ Except.ok s) →
      ∀ out, summarizeChunksE C model text ≠ Except.ok out) ∧
    (∀ out, summarizeChunksE C model text = Except.ok out →
      ∃ ss : List (List Char),
        List.Forall₂ (fun ch s => model ch = Except.ok s) (chunkText C text) ss ∧
        out = List.intercalate [' '] ss) := by
  constructor
  · rintro ⟨ch, hmem, hfail⟩ out hok
    unfold summarizeChunksE at hok
    cases hm : (chunkText C text).mapM model with
    | error e => rw [hm] at hok; exact Except.noConfusion hok
    | ok ss =>
        have h2 := (mapM_except_ok_iff model (chunkText C text) ss).mp hm
        obtain ⟨s, _, hs⟩ := forall2_mem_left h2 ch hmem
        exact hfail s hs
  · intro out hok
    unfold summarizeChunksE at hok
    cases hm : (chunkText C text).mapM model with
    | error e => rw [hm] at hok; exact Except.noConfusion hok
    | ok ss =>
        rw [hm] at hok
        refine ⟨ss, (mapM_except_ok_iff model (chunkText C text) ss).mp hm, ?_⟩
        injection hok with hok
        exact hok.symm

/-- Witness for `chunk_failure_fails_whole`: with a model that always fails,
the operation on a one-character text never returns a result. -/
theorem chunk_failure_fails_whole_witness :
    summarizeChunksE 1 (fun _ => Except.error "boom") ['a'] ≠ Except.ok [] :=
  (chunk_failure_fails_whole 1 (fun _ => Except.error "boom") ['a']).1
    ⟨['a'], by decide, fun s h => Except.noConfusion h⟩ []

/-! ### Notes summarizer page (myapp.py lines 150-182) -/

/-- Characters removed by the Python str.strip call on the extracted text
(ASCII whitespace). -/
def isPySpace (ch : Char) : Bool :=
  ch = ' ' || ch = '\t' || ch = '\n' || ch = '\r' || ch = '\x0b' || ch = '\x0c'

/-- Embeds the truthiness test `not text_content.strip()` at line 166 of
myapp.py: true exactly when the text is empty or consists only of whitespace
characters. -/
def stripIsEmpty (text : String) : Bool :=
  text.toList.all isPySpace

/-- What the summarizer page displays as its outcome. -/
inductive Display
  | warning (msg : String)
  | summaryShown (s : String)
  | errorShown (msg : String)
  | noOutput
deriving DecidableEq

/-- Embeds lines 166-179 of myapp.py: given the summarize oracle (the model
call at line 175, which may raise), the extracted text and whether the
Generate Summary button was pressed, returns what the page displays together
with the number of times the summarization model was invoked. -/
def summarizerPage (summarize : String → Except String String) (text : String)
    (buttonPressed : Bool) : Display × Nat :=
  if stripIsEmpty text then
    (Display.warning
      "Could not extract text from the file. It might be empty or an image-based PDF.", 0)
  else if buttonPressed then
    match summarize text with
    | Except.ok s => (Display.summaryShown s, 1)
    | Except.error e =>
        (Display.errorShown ("An error occurred during summarization: " ++ e), 1)
  else (Display.noOutput, 0)

/-- C3: when the extracted text is empty or whitespace-only the summarizer
page short-circuits: it reports the no-content warning and the model is
invoked zero times, whatever the oracle and the button state. -/
theorem empty_text_short_circuits (summarize : String → Except String String)
    (text : String) (pressed : Bool) (h : stripIsEmpty text = true) :
    summarizerPage summarize text pressed =
      (Display.warning
        "Could not extract text from the file. It might be empty or an image-based PDF.",
       0) := by
  unfold summarizerPage
  rw [h]
  simp

/-- Witness for `empty_text_short_circuits` on a whitespace-only text. -/
theorem empty_text_short_circuits_witness :
    summarizerPage (fun _ => Except.ok "sum") "  \n\t" true =
      (Display.warning
        "Could not extract text from the file. It might be empty or an image-based PDF.",
       0) :=
  empty_text_short_circuits (fun _ => Except.ok "sum") "  \n\t" true (by decide)

/-! ### PDF text extraction (myapp.py line 162) -/

/-- Embeds line 162 of myapp.py: join with a newline the extracted text of
exactly those pages whose extracted text is truthy, that is non-empty.  A
page is represented by the string its extraction returns; no extractable
text is the empty string. -/
def extractPdfText (pages : List String) : String :=
  String.intercalate "\n" (pages.filter (fun p => p != ""))

/-- C7: extraction joins, in order, exactly the pages with non-empty
extracted text; a page with no extractable text is skipped without failing
the document: deleting such a page from the input leaves the result
unchanged, the pages kept form an in-order sublist of the input, and when
every page has text the result is the plain ordered joining. -/
theorem pdf_extraction_skips_empty_pages :
    (∀ l1 l2 : List String,
      extractPdfText (l1 ++ "" :: l2) = extractPdfText (l1 ++ l2)) ∧
    (∀ pages : List String,
      (pages.filter (fun p => p != "")).Sublist pages) ∧
    (∀ pages : List String, (∀ p ∈ pages, p ≠ "") →
      extractPdfText pages = String.intercalate "\n" pages) := by
  refine ⟨?_, ?_, ?_⟩
  · intro l1 l2
    unfold extractPdfText
    rw [List.filter_append, List.filter_append,
      List.filter_cons_of_neg (by decide)]
  · intro pages
    exact List.filter_sublist pages
  · intro pages h
    unfold extractPdfText
    rw [List.filter_eq_self.mpr]
    intro p hp
    exact bne_iff_ne.mpr (h p hp)

/-- Witness for `pdf_extraction_skips_empty_pages` on concrete page lists. -/
theorem pdf_extraction_skips_empty_pages_witness :
    extractPdfText (["page one"] ++ "" :: ["page two"]) =
      extractPdfText (["page one"] ++ ["page two"]) ∧
    ((["alpha", "", "beta"] : List String).filter
      (fun p => p != "")).Sublist ["alpha", "", "beta"] ∧
    extractPdfText ["alpha", "beta"] = String.intercalate "\n" ["alpha", "beta"] :=
  ⟨pdf_extraction_skips_empty_pages.1 ["page one"] ["page two"],
   pdf_extraction_skips_empty_pages.2.1 ["alpha", "", "beta"],
   pdf_extraction_skips_empty_pages.2.2 ["alpha", "beta"] (by decide)⟩

/-! ### Chat page and file handling errors (myapp.py lines 141-147, 159-182) -/

/-- Embeds lines 141-147 of myapp.py: the chat turn sends the prompt through
the Gemini session (an oracle that may raise) and the displayed response is
either the model text or the inline error message built from the
exception. -/
def renderChatResponse (send : String → Except String String)
    (prompt : String) : String :=
  match send prompt with
  | Except.ok resp => resp
  | Except.error e => "Error: Could not connect to Gemini. " ++ e

/-- Embeds lines 158-182 of myapp.py: the outer try around file processing.
The extraction oracle may raise while parsing the upload; on failure the page
shows the inline failure message and the summarizer is never reached,
otherwise the summarizer page logic runs on the extracted text. -/
def filePage (extract : Except String String)
    (summarize : String → Except String String) (pressed : Bool) :
    Display × Nat :=
  match extract with
  | Except.error e => (Display.errorShown ("Failed to process the file: " ++ e), 0)
  | Except.ok text => summarizerPage summarize text pressed

/-- C8: every failure of an external call during an interaction is caught at
the point of use and turned into the inline message of that site: a chat
transport failure yields the chat error text, a file-parsing failure yields
the file error text, and a model-inference failure during summarization
yields the summarization error text.  Each handler is a total function into
displayed output, so no exception propagates past the interaction. -/
theorem external_failures_shown_inline :
    (∀ (e prompt : String),
      renderChatResponse (fun _ => Except.error e) prompt =
        "Error: Could not connect to Gemini. " ++ e) ∧
    (∀ (e : String) (summarize : String → Except String String) (pressed : Bool),
      filePage (Except.error e) summarize pressed =
        (Display.errorShown ("Failed to process the file: " ++ e), 0)) ∧
    (∀ (text e : String), stripIsEmpty text = false →
      filePage (Except.ok text) (fun _ => Except.error e) true =
        (Display.errorShown ("An error occurred during summarization: " ++ e), 1)) := by
  refine ⟨fun e prompt => rfl, fun e summarize pressed => rfl, ?_⟩
  intro text e h
  show summarizerPage (fun _ => Except.error e) text true =
    (Display.errorShown ("An error occurred during summarization: " ++ e), 1)
  unfold summarizerPage
  rw [h]
  simp

/-- Witness for `external_failures_shown_inline` at concrete failures. -/
theorem external_failures_shown_inline_witness :
    renderChatResponse (fun _ => Except.error "timeout") "hello" =
      "Error: Could not connect to Gemini. " ++ "timeout" ∧
    filePage (Except.error "bad pdf") (fun _ => Except.ok "s") true =
      (Display.errorShown ("Failed to process the file: " ++ "bad pdf"), 0) ∧
    filePage (Except.ok "my notes") (fun _ => Except.error "oom") true =
      (Display.errorShown ("An error occurred during summarization: " ++ "oom"), 1) :=
  ⟨external_failures_shown_inline.1 "timeout" "hello",
   external_failures_shown_inline.2.1 "bad pdf" (fun _ => Except.ok "s") true,
   external_failures_shown_inline.2.2 "my notes" "oom" (by decide)⟩

/-! ### Startup API key guard (myapp.py lines 23-29) -/

/-- The user-visible message shown at line 28 when the key is missing. -/
def apiKeyErrorMsg : String :=
  "Gemini API key nahi mili. Kripya ise apne Streamlit Secrets mein 'GEMINI_API_KEY' naam se add karein."

/-- Observable events of one script run. -/
inductive AppEvent
  | errorShown (msg : String)
  | stopped
  | pageRendered (page : String)
deriving DecidableEq

/-- Embeds the guard at lines 23-29 together with the page dispatch of main
(lines 246-255): reading the GEMINI_API_KEY secret; when it is absent the
KeyError/FileNotFoundError handler shows the error and st.stop halts the
script, so no page is rendered; otherwise the selected page renders. -/
def runScript (secrets : List (String × String)) (page : String) :
    List AppEvent :=
  match secrets.lookup "GEMINI_API_KEY" with
  | none => [AppEvent.errorShown apiKeyErrorMsg, AppEvent.stopped]
  | some _ => [AppEvent.pageRendered page]

/-- C6: when the generative-API key is absent from the secret store, the run
shows the user-visible error and stops, and no page-render event occurs. -/
theorem missing_api_key_stops_app (secrets : List (String × String))
    (page : String) (h : secrets.lookup "GEMINI_API_KEY" = none) :
    runScript secrets page = [AppEvent.errorShown apiKeyErrorMsg, AppEvent.stopped] ∧
    ∀ p, AppEvent.pageRendered p ∉ runScript secrets page := by
  unfold runScript
  rw [h]
  refine ⟨rfl, fun p hp => ?_⟩
  rcases List.mem_cons.mp hp with h1 | h1
  · exact AppEvent.noConfusion h1
  · rcases List.mem_cons.mp h1 with h2 | h2
    · exact AppEvent.noConfusion h2
    · exact absurd h2 (List.not_mem_nil _)

/-- Witness for `missing_api_key_stops_app` with an empty secret store. -/
theorem missing_api_key_stops_app_witness :
    runScript [] "Home" = [AppEvent.errorShown apiKeyErrorMsg, AppEvent.stopped] ∧
    ∀ p, AppEvent.pageRendered p ∉ runScript [] "Home" :=
  missing_api_key_stops_app [] "Home" rfl

/-! ### Student dashboard form (myapp.py lines 88-105) -/

/-- Embeds lines 96-100 of myapp.py: the mapping stored in
st.session_state.student_data when the Save Details form is submitted.  The
form has exactly three text inputs: Student Name, Enrollment Number and
College Name. -/
def submitStudentForm (name enrollment college : String) :
    List (String × String) :=
  [("Name", name), ("Enrollment", enrollment), ("College", college)]

/-- Observable side effects of a page interaction: a write to the in-memory
session state or a write to durable storage. -/
inductive Effect
  | sessionWrite (key : String) (value : List (String × String))
  | storageWrite (key : String) (value : List (String × String))
deriving DecidableEq

/-- Embeds the effect of the submitted branch of render_home (lines 95-101):
a single session-state write; render_home contains no write to durable
storage. -/
def homeSubmitEffects (name enrollment college : String) : List Effect :=
  [Effect.sessionWrite "student_data" (submitStudentForm name enrollment college)]

/-- Recognizes a durable-storage write. -/
def Effect.isStorageWrite : Effect → Bool
  | Effect.storageWrite _ _ => true
  | _ => false

/-- C5 counterexample: for a concrete submission, the stored profile has
exactly the keys Name, Enrollment and College, and looking up a semester
field finds nothing, so the profile does not contain a semester as the claim
states. -/
theorem student_profile_missing_semester :
    (submitStudentForm "Asha" "2301234567" "IGNOU Delhi").map Prod.fst =
      ["Name", "Enrollment", "College"] ∧
    (submitStudentForm "Asha" "2301234567" "IGNOU Delhi").lookup "Semester" =
      none := by
  constructor
  · rfl
  · rfl

/-- C5 (amended): after the form is submitted, the stored student profile is
a flat mapping of string fields with exactly the keys Name, Enrollment and
College holding the submitted values (there is no semester field), and the
submission performs only a session-state write — nothing is written to
durable storage. -/
theorem student_profile_flat_session_only (name enrollment college : String) :
    (submitStudentForm name enrollment college).map Prod.fst =
      ["Name", "Enrollment", "College"] ∧
    (submitStudentForm name enrollment college).lookup "Name" = some name ∧
    (submitStudentForm name enrollment college).lookup "Enrollment" =
      some enrollment ∧
    (submitStudentForm name enrollment college).lookup "College" =
      some college ∧
    (homeSubmitEffects name enrollment college).all
      (fun eff => ! eff.isStorageWrite) = true := by
  refine ⟨rfl, ?_, ?_, ?_, rfl⟩
  · simp [submitStudentForm, List.lookup]
  · simp [submitStudentForm, List.lookup]
  · simp [submitStudentForm, List.lookup]

/-! ### Script entry guard (myapp.py lines 257-258) -/

/-- Embeds the module-scope environment of myapp.py at the time line 257
runs: every name bound at top level, mapped to a display value.  The value of
__name__ is whatever the interpreter set it to. -/
def myappModuleEnv (nameVal : String) : List (String × String) :=
  [("__name__", nameVal),
   ("st", "<module streamlit>"),
   ("genai", "<module google.generativeai>"),
   ("PdfReader", "<class PdfReader>"),
   ("pipeline", "<function pipeline>"),
   ("load_gemini_model", "<function load_gemini_model>"),
   ("model", "<GenerativeModel>"),
   ("load_summarizer_pipeline", "<function load_summarizer_pipeline>"),
   ("summarizer_model", "<pipeline summarization>"),
   ("display_header", "<function display_header>"),
   ("render_home", "<function render_home>"),
   ("render_chat", "<function render_chat>"),
   ("render_notes_summarizer", "<function render_notes_summarizer>"),
   ("render_quiz_section", "<function render_quiz_section>"),
   ("render_resources", "<function render_resources>"),
   ("main", "<function main>")]

/-- Outcome of evaluating the guard condition of line 257. -/
inductive GuardResult
  | nameError (missing : String)
  | branch (taken : Bool)
deriving DecidableEq

/-- Embeds line 257 of myapp.py: the condition compares the identifier
actually written in the source, `_name_` (not `__name__`), with the literal
`_main_`; evaluating an identifier that is not bound in the environment
raises NameError. -/
def evalEntryGuard (env : List (String × String)) : GuardResult :=
  match env.lookup "_name_" with
  | none => GuardResult.nameError "_name_"
  | some v => GuardResult.branch (v == "_main_")

/-- Whether the guard at lines 257-258 reaches the call to main. -/
def entryGuardRunsMain (env : List (String × String)) : Bool :=
  match evalEntryGuard env with
  | GuardResult.branch true => true
  | _ => false

/-- C9: whatever the interpreter sets __name__ to, evaluating the guard of
line 257 over the module environment raises NameError for the unbound
identifier `_name_`, and main is never invoked through this guard. -/
theorem entry_guard_raises_name_error (nameVal : String) :
    evalEntryGuard (myappModuleEnv nameVal) = GuardResult.nameError "_name_" ∧
    entryGuardRunsMain (myappModuleEnv nameVal) = false :=
  ⟨rfl, rfl⟩

/-! ### Resources page (myapp.py lines 197-219) -/

/-- Embeds Python dict assignment `d[k] = v` for a string-keyed dict kept in
insertion order: replace the value in place when the key is present,
otherwise append the new binding. -/
def dictSet (d : List (String × String)) (k v : String) :
    List (String × String) :=
  if d.any (fun p => p.1 == k) then
    d.map (fun p => if p.1 == k then (k, v) else p)
  else d ++ [(k, v)]

/-- Embeds lines 203-207 of myapp.py: the initial resources mapping placed in
st.session_state. -/
def initResources : List (String × String) :=
  [("Book PDFs URLs", ""), ("Previous Year Papers URLs", "")]

/-- Embeds lines 213-215 of myapp.py: saving assigns both entries of the
resources mapping to the submitted texts. -/
def saveResources (d : List (String × String)) (books papers : String) :
    List (String × String) :=
  dictSet (dictSet d "Book PDFs URLs" books) "Previous Year Papers URLs" papers

/-- C10: the resources mapping holds exactly the keys Book PDFs URLs and
Previous Year Papers URLs after initialization, and every save from a state
with those keys overwrites both values wholesale with the submitted texts,
adding and removing no keys. -/
theorem resources_keys_invariant :
    initResources.map Prod.fst = ["Book PDFs URLs", "Previous Year Papers URLs"] ∧
    ∀ (d : List (String × String)) (books papers : String),
      d.map Prod.fst = ["Book PDFs URLs", "Previous Year Papers URLs"] →
      saveResources d books papers =
        [("Book PDFs URLs", books), ("Previous Year Papers URLs", papers)] := by
  refine ⟨rfl, ?_⟩
  intro d books papers hmap
  match d, hmap with
  | [(k1, v1), (k2, v2)], hmap =>
      simp only [List.map_cons, List.map_nil, List.cons.injEq, and_true] at hmap
      obtain ⟨h1, h2⟩ := hmap
      subst h1
      subst h2
      simp [saveResources, dictSet]

/-- Witness for `resources_keys_invariant`: saving from the initial state
stores the submitted texts under the two invariant keys. -/
theorem resources_keys_invariant_witness :
    initResources.map Prod.fst = ["Book PDFs URLs", "Previous Year Papers URLs"] ∧
    saveResources initResources "https://books.example" "https://papers.example" =
      [("Book PDFs URLs", "https://books.example"),
       ("Previous Year Papers URLs", "https://papers.example")] :=
  ⟨resources_keys_invariant.1,
   resources_keys_invariant.2 initResources
     "https://books.example" "https://papers.example" (by decide)⟩
